import Mathlib

/-!
Verification of the SyncSpace collaboration hub (server dispatcher in
`src/index.ts`, client provider in `SocketIOProvider.ts`) against its
natural-language specification.  The server's socket handlers and the
client's debounced update queue are embedded as pure functions over an
explicit state; emitted socket messages, acks and replica mutations are
collected in an ordered event trace.
-/

namespace SyncSpace

/-! ### CRDT layer

Modelled from the spec: the CRDT library is out of scope ("assumed to
provide binary update encoding, state vectors, update merging, and
awareness encoding primitives").  An update is a finite list of item
identifiers `(client, clock)`; a replica is the list of items it has
absorbed; the state vector records, per client, the least clock not yet
observed. -/

/-- Modelled from the spec: an atomic CRDT item identifier, a
`(client, clock)` pair as used by the library's state vectors. -/
structure Op where
  client : Nat
  clock : Nat
deriving DecidableEq, Repr

/-- Modelled from the spec: `Y.applyUpdate` — the replica absorbs every
item of the update it has not yet seen. -/
def applyUpdate (d : List Op) (u : List Op) : List Op :=
  d ++ u.filter (fun x => decide (¬ x ∈ d))

/-- Modelled from the spec: `Y.mergeUpdates` — merging a list of updates
yields one update carrying all their items. -/
def mergeUpdates (us : List (List Op)) : List Op :=
  us.flatten

/-- Modelled from the spec: the state vector of a replica maps each
client to the least clock it has not observed. -/
def stateVectorOf (d : List Op) (c : Nat) : Nat :=
  (d.filterMap (fun op => if op.client = c then some (op.clock + 1) else none)).foldr max 0

/-- Modelled from the spec: little-endian base-128 varint decoding as
used by the CRDT library's binary state-vector encoding; fails on a
truncated varint (a continuation byte with no successor). -/
def readVarUint : List Nat → Option (Nat × List Nat)
  | [] => none
  | b :: rest =>
    if b < 128 then some (b, rest)
    else
      match readVarUint rest with
      | none => none
      | some (n, r) => some (b % 128 + 128 * n, r)

/-- Modelled from the spec: decode `n` successive `(client, clock)`
varint pairs of a binary state vector. -/
def readPairs : Nat → List Nat → Option (List (Nat × Nat) × List Nat)
  | 0, rest => some ([], rest)
  | n + 1, rest =>
    match readVarUint rest with
    | none => none
    | some (c, r1) =>
      match readVarUint r1 with
      | none => none
      | some (k, r2) =>
        match readPairs n r2 with
        | none => none
        | some (ps, r3) => some ((c, k) :: ps, r3)

/-- Modelled from the spec: decoding a binary state vector — an entry
count followed by that many `(client, clock)` pairs; `none` when the
bytes are malformed. -/
def decodeStateVector (bs : List Nat) : Option (List (Nat × Nat)) :=
  match readVarUint bs with
  | none => none
  | some (n, rest) =>
    match readPairs n rest with
    | none => none
    | some (ps, _) => some ps

/-- Modelled from the spec: the clock a decoded state vector records for
a client (zero when the client is unknown). -/
def svClock (sv : List (Nat × Nat)) (c : Nat) : Nat :=
  match sv.find? (fun p => p.1 == c) with
  | some p => p.2
  | none => 0

/-- Modelled from the spec: `Y.encodeStateAsUpdate(doc, encodedSV)` —
the diff carrying the items the vector's sender has not observed.  An
empty byte array denotes the empty state vector, so the diff is the full
state; malformed bytes make the library's decoder throw (`none`). -/
def encodeStateAsUpdateDiff (d : List Op) (bs : List Nat) : Option (List Op) :=
  if bs.isEmpty then some d
  else
    match decodeStateVector bs with
    | none => none
    | some sv => some (d.filter (fun op => decide (svClock sv op.client ≤ op.clock)))

/-! ### Identity and document records (from `document.model.ts` and the
socket auth middleware in `src/index.ts`) -/

/-- A verified socket identity: the `socket.data.user` fields the
dispatcher reads (`_id`, `email`). -/
structure ModelUser where
  id : String
  email : String
deriving DecidableEq, Repr

/-- The identity tuple stored in the presence map and broadcast in
`user-joined` / `user-left`. -/
structure Subscriber where
  userId : String
  userName : String
  email : String
deriving DecidableEq, Repr

/-- The display name the dispatcher derives: `email.split('@')[0]`,
the prefix of the address before the first `@` (the whole string when
there is none). -/
def emailLocalPart (e : String) : String :=
  String.mk (e.toList.takeWhile (fun ch => ch != '@'))

/-- The presence entry built for a user in `join` / `rejoin` / `leave`. -/
def subscriberOf (u : ModelUser) : Subscriber :=
  ⟨u.id, emailLocalPart u.email, u.email⟩

/-- A collaborator entry of a document record (`ICollaborator`): a user
id and a role string drawn from `owner | editor | viewer`. -/
structure Collaborator where
  userId : String
  role : String
deriving DecidableEq, Repr

/-- The persisted document record fields the dispatcher reads:
`_id`, `ownerId`, `collaborators`, `yjsSnapshot`. -/
structure DocRecord where
  id : String
  ownerId : String
  collaborators : List Collaborator
  yjsSnapshot : List Op
deriving DecidableEq, Repr

/-- `mongoose.Types.ObjectId.isValid`: a 24-character hex string or any
12-character string. -/
def isHexDigit (ch : Char) : Bool :=
  ch.isDigit || ('a' ≤ ch && ch ≤ 'f') || ('A' ≤ ch && ch ≤ 'F')

/-- Validity test applied to wire document ids before any lookup. -/
def isValidObjectId (s : String) : Bool :=
  (s.length == 24 && s.toList.all isHexDigit) || s.length == 12

/-! ### Server state (`src/index.ts` module-level maps) -/

/-- One entry of `documentStates`: the live replica, its update counter,
its periodic-save timer handle and its last-access time. -/
structure ReplicaState where
  ydoc : List Op
  updateCount : Nat
  timerOn : Bool
  lastAccess : Nat
deriving DecidableEq, Repr

/-- The hub's state: the metadata store, `documentPresence`
(documentId → socketId → subscriber), `documentStates`
(documentId → replica slot) and the transport's rooms
(room name → member socket ids). -/
structure ServerState where
  db : List DocRecord
  documentPresence : List (String × List (String × Subscriber))
  documentStates : List (String × ReplicaState)
  rooms : List (String × List String)
deriving DecidableEq, Repr

/-- First-match association lookup (JS `Map.get`). -/
def alookup {α : Type} (k : String) : List (String × α) → Option α
  | [] => none
  | (k2, v) :: rest => if k2 = k then some v else alookup k rest

/-- Replace the first entry with the key, else append (JS `Map.set`). -/
def aset {α : Type} (k : String) (v : α) : List (String × α) → List (String × α)
  | [] => [(k, v)]
  | (k2, v2) :: rest => if k2 = k then (k2, v) :: rest else (k2, v2) :: aset k v rest

/-- Remove the first entry with the key (JS `Map.delete`). -/
def adelete {α : Type} (k : String) : List (String × α) → List (String × α)
  | [] => []
  | (k2, v2) :: rest => if k2 = k then rest else (k2, v2) :: adelete k rest

/-- The transport room name used for a document: `document:` ++ id. -/
def roomKey (docId : String) : String :=
  "document:" ++ docId

/-- Members of a document's room (empty when the room does not exist). -/
def roomMembers (s : ServerState) (docId : String) : List String :=
  (alookup (roomKey docId) s.rooms).getD []

/-- `socket.join`: add the socket to the room unless already a member. -/
def joinRoom (rooms : List (String × List String)) (sid docId : String) :
    List (String × List String) :=
  let members := (alookup (roomKey docId) rooms).getD []
  aset (roomKey docId) (if members.contains sid then members else members ++ [sid]) rooms

/-- `socket.leave`: remove the socket from the room. -/
def leaveRoom (rooms : List (String × List String)) (sid docId : String) :
    List (String × List String) :=
  let members := (alookup (roomKey docId) rooms).getD []
  aset (roomKey docId) (members.filter (fun t => t != sid)) rooms

/-- The authoritative replica content the server holds for a document
(empty when no replica is live). -/
def replicaOf (s : ServerState) (docId : String) : List Op :=
  match alookup docId s.documentStates with
  | some st => st.ydoc
  | none => []

/-- The subscriber list of a document's presence map. -/
def presenceUsers (s : ServerState) (docId : String) : List Subscriber :=
  ((alookup docId s.documentPresence).getD []).map Prod.snd

/-! ### Messages, acks and the event trace -/

/-- A server-to-client socket message. -/
inductive Msg where
  | yjsSync (update : List Op)
  | yjsUpdate (update : List Op) (userId : String)
  | yjsAwareness (update : List Nat) (userId : String)
  | userJoined (userId : String) (userName : String) (email : String)
  | userLeft (userId : String) (userName : String) (email : String)
  | permissionDenied (documentId : String) (message : String)
deriving DecidableEq, Repr

/-- The acknowledgement a handler resolves through its callback. -/
inductive Ack where
  | ok (users : List Subscriber)
  | err (error : String)
deriving DecidableEq, Repr

/-- One observable step of a handler, in chronological order: a message
sent to one session, an update applied to the authoritative replica, a
snapshot save, or the ack resolution. -/
inductive Event where
  | sent (target : String) (msg : Msg)
  | applied (documentId : String) (update : List Op)
  | saved (documentId : String)
  | acked (a : Ack)
deriving DecidableEq, Repr

/-! ### Metadata store queries -/

/-- The access query of `join` / `rejoin`:
`DocumentModel.findOne({_id, $or: [{ownerId}, {'collaborators.userId'}]})`. -/
def findDocumentForAccess (db : List DocRecord) (docId uid : String) : Option DocRecord :=
  db.find? (fun d =>
    d.id == docId && (d.ownerId == uid || d.collaborators.any (fun c => c.userId == uid)))

/-- `DocumentModel.findById`. -/
def findDocById (db : List DocRecord) (docId : String) : Option DocRecord :=
  db.find? (fun d => d.id == docId)

/-- `DocumentModel.findByIdAndUpdate(documentId, {yjsSnapshot})`: rewrite
the snapshot of the matching record, if any. -/
def dbSetSnapshot (db : List DocRecord) (docId : String) (snap : List Op) : List DocRecord :=
  db.map (fun d => if d.id == docId then { d with yjsSnapshot := snap } else d)

/-! ### `src/index.ts` replica management -/

/-- `SAVE_INTERVAL = 30000` (30 seconds). -/
def SAVE_INTERVAL : Nat := 30000

/-- `UPDATES_THRESHOLD = 50` (save after 50 updates). -/
def UPDATES_THRESHOLD : Nat := 50

/-- `CLEANUP_INACTIVE_TIMEOUT = 300000` (5 minutes of inactivity). -/
def CLEANUP_INACTIVE_TIMEOUT : Nat := 300000

/-- `CLEANUP_CHECK_INTERVAL = 60000` (reaper period, 1 minute). -/
def CLEANUP_CHECK_INTERVAL : Nat := 60000

/-- `getYDoc`: return the live replica slot, creating it (empty content,
zero counter, periodic timer started) when absent; either way stamp
`lastAccess` with the current time.  Returns the updated state together
with the slot. -/
def getYDocState (s : ServerState) (docId : String) (now : Nat) :
    ServerState × ReplicaState :=
  match alookup docId s.documentStates with
  | some st =>
    let st2 := { st with lastAccess := now }
    ({ s with documentStates := aset docId st2 s.documentStates }, st2)
  | none =>
    let st2 : ReplicaState := { ydoc := [], updateCount := 0, timerOn := true, lastAccess := now }
    ({ s with documentStates := aset docId st2 s.documentStates }, st2)

/-- `saveDocumentSnapshot`: no-op when no replica is live; otherwise
write the encoded state to the document record, reset `updateCount` to
zero and stamp `lastAccess`. -/
def saveDocumentSnapshot (s : ServerState) (docId : String) (now : Nat) :
    ServerState × List Event :=
  match alookup docId s.documentStates with
  | none => (s, [])
  | some st =>
    let st2 := { st with updateCount := 0, lastAccess := now }
    ({ s with
        db := dbSetSnapshot s.db docId st.ydoc,
        documentStates := aset docId st2 s.documentStates },
     [Event.saved docId])

/-- `loadDocumentSnapshot`: acquire the replica via `getYDoc`, then
apply the stored snapshot as one update when the record holds a
non-empty one. -/
def loadDocumentSnapshot (s : ServerState) (docId : String) (now : Nat) :
    ServerState × ReplicaState :=
  let g := getYDocState s docId now
  match findDocById g.1.db docId with
  | some d =>
    if d.yjsSnapshot.isEmpty then g
    else
      let st2 := { g.2 with ydoc := applyUpdate g.2.ydoc d.yjsSnapshot }
      ({ g.1 with documentStates := aset docId st2 g.1.documentStates }, st2)
  | none => g

/-- `cleanupDocumentState`: when a replica is live, persist a final
snapshot (the write of the encoded state to the record), clear its timer
and remove the slot. -/
def cleanupDocumentState (s : ServerState) (docId : String) : ServerState :=
  match alookup docId s.documentStates with
  | none => s
  | some st =>
    { s with
        db := dbSetSnapshot s.db docId st.ydoc,
        documentStates := adelete docId s.documentStates }

/-- The reaper's activity test: the document's presence map exists and
is non-empty. -/
def roomActive (s : ServerState) (docId : String) : Bool :=
  match alookup docId s.documentPresence with
  | some pm => decide (0 < pm.length)
  | none => false

/-- `cleanupInactiveDocuments`: one reaper run — replicas with active
subscribers get `lastAccess` refreshed; replicas without subscribers and
stale beyond `CLEANUP_INACTIVE_TIMEOUT` are collected and then retired
via `cleanupDocumentState`. -/
def cleanupInactiveDocuments (s : ServerState) (now : Nat) : ServerState :=
  let states1 := s.documentStates.map (fun p =>
    (p.1, if roomActive s p.1 then { p.2 with lastAccess := now } else p.2))
  let inactive := (s.documentStates.filter (fun p =>
    !roomActive s p.1 && decide (CLEANUP_INACTIVE_TIMEOUT < now - p.2.lastAccess))).map Prod.fst
  inactive.foldl (fun acc d => cleanupDocumentState acc d)
    { s with documentStates := states1 }

/-! ### `src/index.ts` socket handlers -/

/-- The `join-document` handler: validate the id, check access through
the owner/collaborator query, join the room, hydrate the replica, send
the full state as `yjs-sync`, register presence, broadcast `user-joined`
to the peers and ack the subscriber list. -/
def handleJoin (s : ServerState) (user : ModelUser) (sid docId : String) (now : Nat) :
    ServerState × List Event :=
  if !isValidObjectId docId then
    (s, [Event.acked (Ack.err "Invalid document ID")])
  else
    match findDocumentForAccess s.db docId user.id with
    | none => (s, [Event.acked (Ack.err "Document not found or access denied")])
    | some _ =>
      let s1 := { s with rooms := joinRoom s.rooms sid docId }
      let g := loadDocumentSnapshot s1 docId now
      let syncEv := Event.sent sid (Msg.yjsSync g.2.ydoc)
      let pm := (alookup docId g.1.documentPresence).getD []
      let pm2 := aset sid (subscriberOf user) pm
      let s3 := { g.1 with documentPresence := aset docId pm2 g.1.documentPresence }
      let usersInRoom := pm2.map Prod.snd
      let sub := subscriberOf user
      let peers := (roomMembers s3 docId).filter (fun t => t != sid)
      let joinEvs := peers.map (fun t =>
        Event.sent t (Msg.userJoined sub.userId sub.userName sub.email))
      (s3, syncEv :: joinEvs ++ [Event.acked (Ack.ok usersInRoom)])

/-- The `rejoin-document` handler: validate and check access, rejoin the
room, hydrate the replica, compute the diff against the client's
reported state vector (`new Uint8Array(stateVector)` turns an absent
vector into the empty byte array) and send it as `yjs-sync`; when the
diff computation throws, the catch branch acks the failure.  On success
presence is re-registered, `user-joined` is broadcast and the subscriber
list is acked. -/
def handleRejoin (s : ServerState) (user : ModelUser) (sid docId : String)
    (stateVector : Option (List Nat)) (now : Nat) : ServerState × List Event :=
  if !isValidObjectId docId then
    (s, [Event.acked (Ack.err "Invalid document ID")])
  else
    match findDocumentForAccess s.db docId user.id with
    | none => (s, [Event.acked (Ack.err "Document not found or access denied")])
    | some _ =>
      let s1 := { s with rooms := joinRoom s.rooms sid docId }
      let g := loadDocumentSnapshot s1 docId now
      match encodeStateAsUpdateDiff g.2.ydoc (stateVector.getD []) with
      | none => (g.1, [Event.acked (Ack.err "Failed to rejoin document")])
      | some diff =>
        let syncEv := Event.sent sid (Msg.yjsSync diff)
        let pm := (alookup docId g.1.documentPresence).getD []
        let pm2 := aset sid (subscriberOf user) pm
        let s3 := { g.1 with documentPresence := aset docId pm2 g.1.documentPresence }
        let usersInRoom := pm2.map Prod.snd
        let sub := subscriberOf user
        let peers := (roomMembers s3 docId).filter (fun t => t != sid)
        let joinEvs := peers.map (fun t =>
          Event.sent t (Msg.userJoined sub.userId sub.userName sub.email))
        (s3, syncEv :: joinEvs ++ [Event.acked (Ack.ok usersInRoom)])

/-- The `leave-document` handler: leave the room, drop the presence
entry (deleting the presence map when it empties) and broadcast
`user-left` to the room; the handler has no callback, so no ack ever
appears in its trace. -/
def handleLeave (s : ServerState) (user : ModelUser) (sid docId : String) :
    ServerState × List Event :=
  let s1 := { s with rooms := leaveRoom s.rooms sid docId }
  let s2 :=
    match alookup docId s1.documentPresence with
    | none => s1
    | some pm =>
      let pm2 := adelete sid pm
      if pm2.isEmpty then
        { s1 with documentPresence := adelete docId s1.documentPresence }
      else
        { s1 with documentPresence := aset docId pm2 s1.documentPresence }
  let sub := subscriberOf user
  let targets := (roomMembers s2 docId).filter (fun t => t != sid)
  (s2, targets.map (fun t => Event.sent t (Msg.userLeft sub.userId sub.userName sub.email)))

/-- The `yjs-update` handler: look up the document, resolve the sender's
role, reject viewers and other non-editors with a directed
`permission-denied`, otherwise apply the update to the authoritative
replica, broadcast it to the room peers, bump `updateCount` and fire a
snapshot save at the threshold. -/
def handleYjsUpdate (s : ServerState) (user : ModelUser) (sid docId : String)
    (u : List Op) (now : Nat) : ServerState × List Event :=
  match findDocById s.db docId with
  | none => (s, [])
  | some doc =>
    let isOwner := doc.ownerId == user.id
    let collab := doc.collaborators.find? (fun c => c.userId == user.id)
    let isEditor := match collab with | some c => c.role == "editor" | none => false
    let isViewer := match collab with | some c => c.role == "viewer" | none => false
    if isViewer && !isOwner && !isEditor then
      (s, [Event.sent sid (Msg.permissionDenied docId "Viewers cannot edit this document")])
    else if !isOwner && !isEditor then
      (s, [Event.sent sid
        (Msg.permissionDenied docId "You do not have permission to edit this document")])
    else
      let g := getYDocState s docId now
      let st2 := { g.2 with ydoc := applyUpdate g.2.ydoc u }
      let s2 := { g.1 with documentStates := aset docId st2 g.1.documentStates }
      let peers := (roomMembers s2 docId).filter (fun t => t != sid)
      let bcast := peers.map (fun t => Event.sent t (Msg.yjsUpdate u user.id))
      match alookup docId s2.documentStates with
      | none => (s2, Event.applied docId u :: bcast)
      | some stX =>
        let st3 := { stX with updateCount := stX.updateCount + 1 }
        let s3 := { s2 with documentStates := aset docId st3 s2.documentStates }
        if UPDATES_THRESHOLD ≤ st3.updateCount then
          let sv := saveDocumentSnapshot s3 docId now
          (sv.1, Event.applied docId u :: bcast ++ sv.2)
        else
          (s3, Event.applied docId u :: bcast)

/-- The acceptance condition of `yjs-update`, as the handler computes
it: the sender owns the document or their collaborator entry carries the
`editor` role. -/
def editPermitted (doc : DocRecord) (uid : String) : Bool :=
  doc.ownerId == uid ||
    (match doc.collaborators.find? (fun c => c.userId == uid) with
     | some c => c.role == "editor"
     | none => false)

/-- The `yjs-awareness` handler: broadcast the opaque awareness payload,
tagged with the sender's user id, to the room (excluding the sender);
no state is read or written and no check is performed. -/
def handleAwareness (s : ServerState) (user : ModelUser) (sid docId : String)
    (aw : List Nat) : ServerState × List Event :=
  let peers := (roomMembers s docId).filter (fun t => t != sid)
  (s, peers.map (fun t => Event.sent t (Msg.yjsAwareness aw user.id)))

/-! ### Client provider (`SocketIOProvider.ts`) -/

/-- `MAX_QUEUE_SIZE = 10` — max updates before forcing send. -/
def MAX_QUEUE_SIZE : Nat := 10

/-- `DEBOUNCE_WAIT = 50` — debounce window in milliseconds. -/
def DEBOUNCE_WAIT : Nat := 50

/-- The provider's local-update machinery: the pending update buffer and
the absolute deadline of the armed debounce timer, if any. -/
structure ProviderState where
  updateQueue : List (List Op)
  debounceDeadline : Option Nat
deriving DecidableEq, Repr

/-- A provider emission: one `yjs-update` message to the server. -/
inductive ClientEvent where
  | emitted (documentId : String) (update : List Op)
deriving DecidableEq, Repr

/-- `flushUpdates`: nothing to do on an empty buffer; otherwise merge
the pending updates (a single pending update is sent as-is) into one
payload, emit one `yjs-update`, clear the buffer and the timer. -/
def flushUpdates (docId : String) (p : ProviderState) :
    ProviderState × List ClientEvent :=
  if p.updateQueue.isEmpty then (p, [])
  else
    let merged :=
      if p.updateQueue.length == 1 then p.updateQueue.headD []
      else mergeUpdates p.updateQueue
    (⟨[], none⟩, [ClientEvent.emitted docId merged])

/-- `handleLocalUpdate`: ignore self-origin events; otherwise enqueue
the update, cancel any armed timer, flush immediately once the buffer
holds `MAX_QUEUE_SIZE` updates, else re-arm the debounce timer
`DEBOUNCE_WAIT` ms from now. -/
def handleLocalUpdate (docId : String) (p : ProviderState) (u : List Op)
    (originIsSelf : Bool) (now : Nat) : ProviderState × List ClientEvent :=
  if originIsSelf then (p, [])
  else
    let q := p.updateQueue ++ [u]
    if MAX_QUEUE_SIZE ≤ q.length then
      flushUpdates docId ⟨q, none⟩
    else
      (⟨q, some (now + DEBOUNCE_WAIT)⟩, [])

/-- The debounce timer firing: the timer is disarmed and the buffer is
flushed. -/
def debounceFire (docId : String) (p : ProviderState) :
    ProviderState × List ClientEvent :=
  flushUpdates docId ⟨p.updateQueue, none⟩

/-! ### Concrete fixtures for witnesses and counterexamples -/

/-- A demo document record (id is a valid 12-character ObjectId): owned
by `owner1`, with a viewer and an editor collaborator, no snapshot. -/
def demoDoc : DocRecord :=
  ⟨"aaaaaaaaaaaa", "owner1", [⟨"eve", "viewer"⟩, ⟨"bob", "editor"⟩], []⟩

/-- The viewer collaborator's identity. -/
def eveUser : ModelUser := ⟨"eve", "eve@example.com"⟩

/-- The editor collaborator's identity. -/
def bobUser : ModelUser := ⟨"bob", "bob@example.com"⟩

/-- The owner's identity. -/
def ownerUser : ModelUser := ⟨"owner1", "owner@example.com"⟩

/-- An authenticated user with no access to the demo document. -/
def malloryUser : ModelUser := ⟨"mallory", "mallory@example.com"⟩

/-- A demo hub state: the demo document is live with one absorbed item,
three pending updates, one presence entry and two sockets in its room. -/
def demoState : ServerState :=
  { db := [demoDoc],
    documentPresence := [("aaaaaaaaaaaa", [("peer1", subscriberOf bobUser)])],
    documentStates := [("aaaaaaaaaaaa", ⟨[⟨7, 0⟩], 3, true, 100⟩)],
    rooms := [("document:aaaaaaaaaaaa", ["peer1", "evesock"])] }

/-- The demo state with the replica counter one update below the
snapshot threshold. -/
def nearThresholdState : ServerState :=
  { demoState with documentStates := [("aaaaaaaaaaaa", ⟨[⟨7, 0⟩], 49, true, 100⟩)] }

/-- A reaper fixture: the demo document's replica has an active
subscriber, while document `bbbbbbbbbbbb` has a stale, room-less
replica. -/
def reaperState : ServerState :=
  { db := [demoDoc],
    documentPresence := [("aaaaaaaaaaaa", [("peer1", subscriberOf bobUser)])],
    documentStates :=
      [("aaaaaaaaaaaa", ⟨[⟨7, 0⟩], 3, true, 100⟩),
       ("bbbbbbbbbbbb", ⟨[⟨9, 0⟩], 1, true, 100⟩)],
    rooms := [("document:aaaaaaaaaaaa", ["peer1", "evesock"])] }

/-- A provider holding nine pending one-item updates and no armed
timer. -/
def nineQueued : ProviderState :=
  ⟨[[⟨1, 0⟩], [⟨1, 1⟩], [⟨1, 2⟩], [⟨1, 3⟩], [⟨1, 4⟩],
    [⟨1, 5⟩], [⟨1, 6⟩], [⟨1, 7⟩], [⟨1, 8⟩]], none⟩

/-- A provider holding one pending update with an armed timer. -/
def oneQueued : ProviderState := ⟨[[⟨1, 0⟩]], some 53⟩

/-! ### Association list and CRDT helper lemmas -/

theorem alookup_aset_self {α : Type} (k : String) (v : α) (l : List (String × α)) :
    alookup k (aset k v l) = some v := by
  induction l with
  | nil => simp [aset, alookup]
  | cons p rest ih =>
    by_cases h : p.1 = k
    · simp [aset, alookup, h]
    · simp [aset, alookup, h, ih]

theorem mem_aset_self_snd {α : Type} (k : String) (v : α) (l : List (String × α)) :
    v ∈ (aset k v l).map Prod.snd := by
  induction l with
  | nil => simp [aset]
  | cons p rest ih =>
    by_cases h : p.1 = k
    · simp [aset, h]
    · simp only [aset, h, if_false, List.map_cons, List.mem_cons]
      exact Or.inr ih

theorem alookup_eq_none_of_not_mem_keys {α : Type} (k : String) (l : List (String × α))
    (h : k ∉ l.map Prod.fst) : alookup k l = none := by
  induction l with
  | nil => rfl
  | cons p rest ih =>
    simp only [List.map_cons, List.mem_cons] at h
    push_neg at h
    have hp : p.1 ≠ k := fun hp => h.1 hp.symm
    simp [alookup, hp, ih h.2]

theorem adelete_of_alookup_none {α : Type} (k : String) (l : List (String × α))
    (h : alookup k l = none) : adelete k l = l := by
  induction l with
  | nil => rfl
  | cons p rest ih =>
    by_cases hp : p.1 = k
    · simp [alookup, hp] at h
    · simp only [alookup, hp, if_false] at h
      simp [adelete, hp, ih h]

theorem alookup_adelete_ne {α : Type} {k d : String} (l : List (String × α)) (h : k ≠ d) :
    alookup k (adelete d l) = alookup k l := by
  induction l with
  | nil => rfl
  | cons p rest ih =>
    have hdk : d ≠ k := Ne.symm h
    by_cases hp : p.1 = d
    · have hpk : p.1 ≠ k := by rw [hp]; exact hdk
      simp [adelete, alookup, hp, hpk, hdk]
    · by_cases hk : p.1 = k
      · simp [adelete, alookup, hp, hk, Ne.symm hdk]
      · simp [adelete, alookup, hp, hk, ih]

theorem adelete_sublist {α : Type} (k : String) (l : List (String × α)) :
    (adelete k l).Sublist l := by
  induction l with
  | nil => exact List.Sublist.refl _
  | cons p rest ih =>
    by_cases hp : p.1 = k
    · simp only [adelete, hp, if_true]
      exact List.sublist_cons_self p rest
    · simp only [adelete, hp, if_false]
      exact List.Sublist.cons₂ p ih

theorem alookup_adelete_self {α : Type} (k : String) (l : List (String × α))
    (hnd : (l.map Prod.fst).Nodup) : alookup k (adelete k l) = none := by
  induction l with
  | nil => rfl
  | cons p rest ih =>
    simp only [List.map_cons, List.nodup_cons] at hnd
    by_cases hp : p.1 = k
    · simp only [adelete, hp, if_true]
      exact alookup_eq_none_of_not_mem_keys k rest (hp ▸ hnd.1)
    · simp [adelete, alookup, hp, ih hnd.2]

theorem alookup_map_keyed {α β : Type} (F : String × α → String × β)
    (hkey : ∀ p, (F p).1 = p.1) (k : String) (l : List (String × α)) :
    alookup k (l.map F) = (alookup k l).map (fun v => (F (k, v)).2) := by
  induction l with
  | nil => rfl
  | cons p rest ih =>
    by_cases h : p.1 = k
    · have hpe : p = (k, p.2) := by rw [← h]
      simp only [List.map_cons, alookup, hkey, h, if_true, Option.map_some']
      rw [hpe]
    · simp [alookup, hkey, h, ih]

theorem keys_map_keyed {α β : Type} (F : String × α → String × β)
    (hkey : ∀ p, (F p).1 = p.1) (l : List (String × α)) :
    (l.map F).map Prod.fst = l.map Prod.fst := by
  induction l with
  | nil => rfl
  | cons p rest ih => simp [hkey, ih]

theorem alookup_some_mem {α : Type} {k : String} {v : α} {l : List (String × α)}
    (h : alookup k l = some v) : (k, v) ∈ l := by
  induction l with
  | nil => simp [alookup] at h
  | cons p rest ih =>
    obtain ⟨k2, v2⟩ := p
    by_cases hp : k2 = k
    · simp only [alookup, hp, if_true, Option.some.injEq] at h
      rw [← hp, ← h]
      exact List.mem_cons_self _ _
    · simp only [alookup, hp, if_false] at h
      exact List.mem_cons_of_mem _ (ih h)

theorem alookup_of_mem_nodup {α : Type} {k : String} {v : α} {l : List (String × α)}
    (hnd : (l.map Prod.fst).Nodup) (h : (k, v) ∈ l) : alookup k l = some v := by
  induction l with
  | nil => simp at h
  | cons p rest ih =>
    simp only [List.map_cons, List.nodup_cons] at hnd
    rcases List.mem_cons.mp h with he | hm
    · rw [← he]
      simp [alookup]
    · have hk : p.1 ≠ k := by
        intro hpk
        exact hnd.1 (hpk ▸ (List.mem_map.mpr ⟨(k, v), hm, rfl⟩))
      simp [alookup, hk, ih hnd.2 hm]

theorem foldl_adelete_lookup {α : Type} (ds : List String) (l : List (String × α))
    (k : String) (hnd : (l.map Prod.fst).Nodup) :
    alookup k (ds.foldl (fun acc d => adelete d acc) l) =
      if k ∈ ds then none else alookup k l := by
  induction ds generalizing l with
  | nil => simp
  | cons d ds ih =>
    have hnd2 : ((adelete d l).map Prod.fst).Nodup :=
      hnd.sublist ((adelete_sublist d l).map Prod.fst)
    by_cases hk : k = d
    · subst hk
      simp only [List.foldl_cons, List.mem_cons, true_or, if_true]
      rw [ih _ hnd2]
      by_cases hm : k ∈ ds
      · simp [hm]
      · simp [hm, alookup_adelete_self k l hnd]
    · simp only [List.foldl_cons]
      rw [ih _ hnd2, alookup_adelete_ne l hk]
      simp [List.mem_cons, hk]

theorem mem_applyUpdate_right {d u : List Op} {op : Op} (h : op ∈ u) :
    op ∈ applyUpdate d u := by
  by_cases hd : op ∈ d
  · exact List.mem_append_left _ hd
  · refine List.mem_append_right _ ?_
    simp [List.mem_filter, h, hd]

theorem mergeUpdates_singleton (u : List Op) : mergeUpdates [u] = u := by
  simp [mergeUpdates]

/-! ### Replica-management helper lemmas -/

theorem getYDocState_lookup (s : ServerState) (docId : String) (now : Nat) :
    alookup docId (getYDocState s docId now).1.documentStates =
      some (getYDocState s docId now).2 := by
  unfold getYDocState
  cases alookup docId s.documentStates <;> simp [alookup_aset_self]

theorem getYDocState_db (s : ServerState) (docId : String) (now : Nat) :
    (getYDocState s docId now).1.db = s.db := by
  unfold getYDocState
  cases alookup docId s.documentStates <;> simp

theorem getYDocState_rooms (s : ServerState) (docId : String) (now : Nat) :
    (getYDocState s docId now).1.rooms = s.rooms := by
  unfold getYDocState
  cases alookup docId s.documentStates <;> simp

theorem getYDocState_presence (s : ServerState) (docId : String) (now : Nat) :
    (getYDocState s docId now).1.documentPresence = s.documentPresence := by
  unfold getYDocState
  cases alookup docId s.documentStates <;> simp

theorem getYDocState_lastAccess (s : ServerState) (docId : String) (now : Nat) :
    (getYDocState s docId now).2.lastAccess = now := by
  unfold getYDocState
  cases alookup docId s.documentStates <;> simp

theorem loadDocumentSnapshot_lookup (s : ServerState) (docId : String) (now : Nat) :
    alookup docId (loadDocumentSnapshot s docId now).1.documentStates =
      some (loadDocumentSnapshot s docId now).2 := by
  simp only [loadDocumentSnapshot]
  cases findDocById (getYDocState s docId now).1.db docId with
  | none => exact getYDocState_lookup s docId now
  | some d =>
    by_cases he : d.yjsSnapshot = []
    · simpa [he] using getYDocState_lookup s docId now
    · simp [he, alookup_aset_self]

theorem loadDocumentSnapshot_rooms (s : ServerState) (docId : String) (now : Nat) :
    (loadDocumentSnapshot s docId now).1.rooms = s.rooms := by
  simp only [loadDocumentSnapshot]
  cases findDocById (getYDocState s docId now).1.db docId with
  | none => exact getYDocState_rooms s docId now
  | some d =>
    by_cases he : d.yjsSnapshot = []
    · simpa [he] using getYDocState_rooms s docId now
    · simp [he, getYDocState_rooms]

theorem loadDocumentSnapshot_presence (s : ServerState) (docId : String) (now : Nat) :
    (loadDocumentSnapshot s docId now).1.documentPresence = s.documentPresence := by
  simp only [loadDocumentSnapshot]
  cases findDocById (getYDocState s docId now).1.db docId with
  | none => exact getYDocState_presence s docId now
  | some d =>
    by_cases he : d.yjsSnapshot = []
    · simpa [he] using getYDocState_presence s docId now
    · simp [he, getYDocState_presence]

theorem cleanupDocumentState_states (s : ServerState) (d : String) :
    (cleanupDocumentState s d).documentStates = adelete d s.documentStates := by
  unfold cleanupDocumentState
  cases h : alookup d s.documentStates with
  | none => simp [adelete_of_alookup_none d _ h]
  | some st => simp

theorem foldl_cleanup_states (ds : List String) (s : ServerState) :
    (ds.foldl (fun acc d => cleanupDocumentState acc d) s).documentStates =
      ds.foldl (fun l d => adelete d l) s.documentStates := by
  induction ds generalizing s with
  | nil => rfl
  | cons d ds ih =>
    simp only [List.foldl_cons]
    rw [ih, cleanupDocumentState_states]

/-! ### Claim theorems -/

/-- C1: a `yjs-update` from a session whose user resolves to role
`viewer` (and is neither the owner nor an editor) produces exactly one
`permission-denied` message carrying that document id, directed at that
session only; the server state — in particular the authoritative
replica, hence its state vector — is unchanged and no `yjs-update`
broadcast is issued. -/
theorem viewer_update_denied (s : ServerState) (user : ModelUser)
    (sid docId : String) (u : List Op) (now : Nat) (doc : DocRecord) (c : Collaborator)
    (hfind : findDocById s.db docId = some doc)
    (hown : doc.ownerId ≠ user.id)
    (hc : doc.collaborators.find? (fun c2 => c2.userId == user.id) = some c)
    (hrole : c.role = "viewer") :
    handleYjsUpdate s user sid docId u now =
      (s, [Event.sent sid
        (Msg.permissionDenied docId "Viewers cannot edit this document")]) ∧
    stateVectorOf (replicaOf (handleYjsUpdate s user sid docId u now).1 docId) =
      stateVectorOf (replicaOf s docId) := by
  have h1 : handleYjsUpdate s user sid docId u now =
      (s, [Event.sent sid
        (Msg.permissionDenied docId "Viewers cannot edit this document")]) := by
    simp only [handleYjsUpdate, hfind, hc, hrole]
    simp [hown]
  exact ⟨h1, by rw [h1]⟩

/-- Shared characterization of the accepted branch of the `yjs-update`
handler: when the sender is the owner or an editor, both rejection
branches are skipped and the handler applies, broadcasts, counts and
possibly saves. -/
theorem handleYjsUpdate_accepted_eq (s : ServerState) (user : ModelUser)
    (sid docId : String) (u : List Op) (now : Nat) (doc : DocRecord)
    (hfind : findDocById s.db docId = some doc)
    (hperm : editPermitted doc user.id = true) :
    handleYjsUpdate s user sid docId u now =
      (let g := getYDocState s docId now
       let st2 := { g.2 with ydoc := applyUpdate g.2.ydoc u }
       let s2 := { g.1 with documentStates := aset docId st2 g.1.documentStates }
       let peers := (roomMembers s2 docId).filter (fun t => t != sid)
       let bcast := peers.map (fun t => Event.sent t (Msg.yjsUpdate u user.id))
       let st3 := { st2 with updateCount := st2.updateCount + 1 }
       let s3 := { s2 with documentStates := aset docId st3 s2.documentStates }
       if UPDATES_THRESHOLD ≤ st3.updateCount then
         let sv := saveDocumentSnapshot s3 docId now
         (sv.1, Event.applied docId u :: bcast ++ sv.2)
       else
         (s3, Event.applied docId u :: bcast)) := by
  simp only [editPermitted] at hperm
  simp only [handleYjsUpdate, hfind]
  rcases Bool.or_eq_true_iff.mp hperm with hO | hE
  · simp [hO, alookup_aset_self]
  · cases hc : doc.collaborators.find? (fun c => c.userId == user.id) with
    | none => rw [hc] at hE; simp at hE
    | some c =>
      rw [hc] at hE
      have hrole : c.role = "editor" := by simpa using hE
      simp [hc, hrole, alookup_aset_self]

/-- Witness for the C1 theorem: the viewer `eve` pushes an update to
the demo document and is denied while the state stays put. -/
theorem viewer_update_denied_witness :
    handleYjsUpdate demoState eveUser "evesock" "aaaaaaaaaaaa" [⟨1, 0⟩] 200 =
      (demoState, [Event.sent "evesock"
        (Msg.permissionDenied "aaaaaaaaaaaa" "Viewers cannot edit this document")]) ∧
    stateVectorOf (replicaOf
        (handleYjsUpdate demoState eveUser "evesock" "aaaaaaaaaaaa" [⟨1, 0⟩] 200).1
        "aaaaaaaaaaaa") =
      stateVectorOf (replicaOf demoState "aaaaaaaaaaaa") :=
  viewer_update_denied demoState eveUser "evesock" "aaaaaaaaaaaa" [⟨1, 0⟩] 200
    demoDoc ⟨"eve", "viewer"⟩ (by decide) (by decide) (by decide) (by decide)

/-- C4: an accepted `yjs-update` first applies the update to the
authoritative replica — the `applied` step heads the handler's
chronological trace — and only afterwards issues the `yjs-update`
broadcasts, so every broadcast recipient can assume the final server
replica contains every item of the update. -/
theorem update_applied_before_broadcast (s : ServerState) (user : ModelUser)
    (sid docId : String) (u : List Op) (now : Nat) (doc : DocRecord)
    (hfind : findDocById s.db docId = some doc)
    (hperm : editPermitted doc user.id = true) :
    ∃ rest,
      (handleYjsUpdate s user sid docId u now).2 = Event.applied docId u :: rest ∧
      (∀ t up uid, Event.sent t (Msg.yjsUpdate up uid) ∈
          (handleYjsUpdate s user sid docId u now).2 →
        Event.sent t (Msg.yjsUpdate up uid) ∈ rest) ∧
      (∀ op ∈ u, op ∈ replicaOf (handleYjsUpdate s user sid docId u now).1 docId) := by
  rw [handleYjsUpdate_accepted_eq s user sid docId u now doc hfind hperm]
  by_cases hth : UPDATES_THRESHOLD ≤ (getYDocState s docId now).2.updateCount + 1
  · simp only [hth, if_true]
    refine ⟨_, rfl, ?_, ?_⟩
    · intro t up uid hm
      rcases List.mem_cons.mp hm with he | hm2
      · exact absurd he (by simp)
      · exact hm2
    · intro op hop
      simp only [saveDocumentSnapshot, alookup_aset_self, replicaOf]
      exact mem_applyUpdate_right hop
  · simp only [hth, if_false]
    refine ⟨_, rfl, ?_, ?_⟩
    · intro t up uid hm
      rcases List.mem_cons.mp hm with he | hm2
      · exact absurd he (by simp)
      · exact hm2
    · intro op hop
      simp only [alookup_aset_self, replicaOf]
      exact mem_applyUpdate_right hop

/-- Witness for the C4 theorem: the owner updates the demo document. -/
theorem update_applied_before_broadcast_witness :
    ∃ rest,
      (handleYjsUpdate demoState ownerUser "ownsock" "aaaaaaaaaaaa" [⟨1, 0⟩] 200).2 =
        Event.applied "aaaaaaaaaaaa" [⟨1, 0⟩] :: rest ∧
      (∀ t up uid, Event.sent t (Msg.yjsUpdate up uid) ∈
          (handleYjsUpdate demoState ownerUser "ownsock" "aaaaaaaaaaaa" [⟨1, 0⟩] 200).2 →
        Event.sent t (Msg.yjsUpdate up uid) ∈ rest) ∧
      (∀ op ∈ [(⟨1, 0⟩ : Op)], op ∈ replicaOf
          (handleYjsUpdate demoState ownerUser "ownsock" "aaaaaaaaaaaa" [⟨1, 0⟩] 200).1
          "aaaaaaaaaaaa") :=
  update_applied_before_broadcast demoState ownerUser "ownsock" "aaaaaaaaaaaa"
    [⟨1, 0⟩] 200 demoDoc (by decide) (by decide)

/-- C5: an accepted `yjs-update` increments the replica's `updateCount`
by one; when the incremented counter reaches `UPDATES_THRESHOLD = 50`
the snapshot save fires, resetting `updateCount` to zero and stamping
`lastAccess`, and otherwise no save fires. -/
theorem accepted_update_counter (s : ServerState) (user : ModelUser)
    (sid docId : String) (u : List Op) (now : Nat) (doc : DocRecord)
    (hfind : findDocById s.db docId = some doc)
    (hperm : editPermitted doc user.id = true) :
    (¬ UPDATES_THRESHOLD ≤ (getYDocState s docId now).2.updateCount + 1 →
      alookup docId (handleYjsUpdate s user sid docId u now).1.documentStates =
        some { (getYDocState s docId now).2 with
                 ydoc := applyUpdate (getYDocState s docId now).2.ydoc u,
                 updateCount := (getYDocState s docId now).2.updateCount + 1 } ∧
      Event.saved docId ∉ (handleYjsUpdate s user sid docId u now).2) ∧
    (UPDATES_THRESHOLD ≤ (getYDocState s docId now).2.updateCount + 1 →
      alookup docId (handleYjsUpdate s user sid docId u now).1.documentStates =
        some { (getYDocState s docId now).2 with
                 ydoc := applyUpdate (getYDocState s docId now).2.ydoc u,
                 updateCount := 0,
                 lastAccess := now } ∧
      Event.saved docId ∈ (handleYjsUpdate s user sid docId u now).2) := by
  rw [handleYjsUpdate_accepted_eq s user sid docId u now doc hfind hperm]
  constructor
  · intro hth
    constructor
    · simp [hth, alookup_aset_self]
    · simp only [hth, if_false]
      intro hm
      rcases List.mem_cons.mp hm with he | hm2
      · exact absurd he (by simp)
      · rcases List.mem_map.mp hm2 with ⟨t, _, he2⟩
        exact absurd he2 (by simp)
  · intro hth
    constructor
    · simp [hth, saveDocumentSnapshot, alookup_aset_self]
    · simp [hth, saveDocumentSnapshot, alookup_aset_self]

/-- Witness for the C5 theorem: the editor `bob` pushes the fiftieth
update since the last save, so the snapshot fires. -/
theorem accepted_update_counter_witness :
    (¬ UPDATES_THRESHOLD ≤
        (getYDocState nearThresholdState "aaaaaaaaaaaa" 200).2.updateCount + 1 →
      alookup "aaaaaaaaaaaa"
          (handleYjsUpdate nearThresholdState bobUser "bobsock" "aaaaaaaaaaaa"
            [⟨1, 0⟩] 200).1.documentStates =
        some { (getYDocState nearThresholdState "aaaaaaaaaaaa" 200).2 with
                 ydoc := applyUpdate
                   (getYDocState nearThresholdState "aaaaaaaaaaaa" 200).2.ydoc [⟨1, 0⟩],
                 updateCount :=
                   (getYDocState nearThresholdState "aaaaaaaaaaaa" 200).2.updateCount + 1 } ∧
      Event.saved "aaaaaaaaaaaa" ∉
        (handleYjsUpdate nearThresholdState bobUser "bobsock" "aaaaaaaaaaaa"
          [⟨1, 0⟩] 200).2) ∧
    (UPDATES_THRESHOLD ≤
        (getYDocState nearThresholdState "aaaaaaaaaaaa" 200).2.updateCount + 1 →
      alookup "aaaaaaaaaaaa"
          (handleYjsUpdate nearThresholdState bobUser "bobsock" "aaaaaaaaaaaa"
            [⟨1, 0⟩] 200).1.documentStates =
        some { (getYDocState nearThresholdState "aaaaaaaaaaaa" 200).2 with
                 ydoc := applyUpdate
                   (getYDocState nearThresholdState "aaaaaaaaaaaa" 200).2.ydoc [⟨1, 0⟩],
                 updateCount := 0,
                 lastAccess := 200 } ∧
      Event.saved "aaaaaaaaaaaa" ∈
        (handleYjsUpdate nearThresholdState bobUser "bobsock" "aaaaaaaaaaaa"
          [⟨1, 0⟩] 200).2) :=
  accepted_update_counter nearThresholdState bobUser "bobsock" "aaaaaaaaaaaa"
    [⟨1, 0⟩] 200 demoDoc (by decide) (by decide)

/-- C3: a successful `join-document` sends the joiner a `yjs-sync`
carrying the replica's full state as the first step of its trace, ahead
of the ack resolution which closes the trace, and the ack's user list is
the document room's current subscriber list including the joiner. -/
theorem join_syncs_before_ack (s : ServerState) (user : ModelUser)
    (sid docId : String) (now : Nat) (doc : DocRecord)
    (hvalid : isValidObjectId docId = true)
    (hacc : findDocumentForAccess s.db docId user.id = some doc) :
    ∃ payload mids users,
      (handleJoin s user sid docId now).2 =
        Event.sent sid (Msg.yjsSync payload) :: mids ++ [Event.acked (Ack.ok users)] ∧
      payload = replicaOf (handleJoin s user sid docId now).1 docId ∧
      (∀ e ∈ mids, ∀ a, e ≠ Event.acked a) ∧
      users = presenceUsers (handleJoin s user sid docId now).1 docId ∧
      subscriberOf user ∈ users := by
  simp only [handleJoin, hvalid, hacc, Bool.not_true, Bool.false_eq_true, if_false]
  refine ⟨_, _, _, rfl, ?_, ?_, ?_, ?_⟩
  · have hlk := loadDocumentSnapshot_lookup
      { s with rooms := joinRoom s.rooms sid docId } docId now
    simp [replicaOf, hlk]
  · intro e he a
    rcases List.mem_map.mp he with ⟨t, _, rfl⟩
    simp
  · simp [presenceUsers, alookup_aset_self]
  · exact mem_aset_self_snd _ _ _

/-- Witness for the C3 theorem: the editor `bob` joins the demo
document from a second socket. -/
theorem join_syncs_before_ack_witness :
    ∃ payload mids users,
      (handleJoin demoState bobUser "bobsock2" "aaaaaaaaaaaa" 300).2 =
        Event.sent "bobsock2" (Msg.yjsSync payload) ::
          mids ++ [Event.acked (Ack.ok users)] ∧
      payload = replicaOf (handleJoin demoState bobUser "bobsock2" "aaaaaaaaaaaa" 300).1
        "aaaaaaaaaaaa" ∧
      (∀ e ∈ mids, ∀ a, e ≠ Event.acked a) ∧
      users = presenceUsers (handleJoin demoState bobUser "bobsock2" "aaaaaaaaaaaa" 300).1
        "aaaaaaaaaaaa" ∧
      subscriberOf bobUser ∈ users :=
  join_syncs_before_ack demoState bobUser "bobsock2" "aaaaaaaaaaaa" 300 demoDoc
    (by decide) (by decide)

/-- C6: one reaper run retires exactly the live replicas whose room is
empty and whose `lastAccess` lies more than `CLEANUP_INACTIVE_TIMEOUT`
in the past; a replica whose room has a subscriber is never retired and
instead has its `lastAccess` refreshed to the current time, and an
empty-room replica within the timeout is kept untouched. -/
theorem reaper_retires_exactly_inactive (s : ServerState) (now : Nat)
    (docId : String) (st : ReplicaState)
    (hnd : (s.documentStates.map Prod.fst).Nodup)
    (hlk : alookup docId s.documentStates = some st) :
    (roomActive s docId = true →
      alookup docId (cleanupInactiveDocuments s now).documentStates =
        some { st with lastAccess := now }) ∧
    (roomActive s docId = false →
      CLEANUP_INACTIVE_TIMEOUT < now - st.lastAccess →
      alookup docId (cleanupInactiveDocuments s now).documentStates = none) ∧
    (roomActive s docId = false →
      ¬ CLEANUP_INACTIVE_TIMEOUT < now - st.lastAccess →
      alookup docId (cleanupInactiveDocuments s now).documentStates = some st) := by
  have hbase : (cleanupInactiveDocuments s now).documentStates =
      ((s.documentStates.filter (fun p =>
          !roomActive s p.1 &&
            decide (CLEANUP_INACTIVE_TIMEOUT < now - p.2.lastAccess))).map
        Prod.fst).foldl (fun l d => adelete d l)
        (s.documentStates.map (fun p =>
          (p.1, if roomActive s p.1 then { p.2 with lastAccess := now } else p.2))) := by
    simp only [cleanupInactiveDocuments]
    rw [foldl_cleanup_states]
  have hkeys : ∀ p : String × ReplicaState,
      ((fun p : String × ReplicaState =>
        (p.1, if roomActive s p.1 then { p.2 with lastAccess := now } else p.2)) p).1 =
        p.1 :=
    fun _ => rfl
  have hnd1 : ((s.documentStates.map (fun p =>
      (p.1, if roomActive s p.1 then { p.2 with lastAccess := now } else p.2))).map
        Prod.fst).Nodup := by
    rw [keys_map_keyed _ hkeys]
    exact hnd
  have hflk := foldl_adelete_lookup
    ((s.documentStates.filter (fun p =>
      !roomActive s p.1 &&
        decide (CLEANUP_INACTIVE_TIMEOUT < now - p.2.lastAccess))).map Prod.fst)
    (s.documentStates.map (fun p =>
      (p.1, if roomActive s p.1 then { p.2 with lastAccess := now } else p.2)))
    docId hnd1
  have hlk1 : alookup docId (s.documentStates.map (fun p =>
      (p.1, if roomActive s p.1 then { p.2 with lastAccess := now } else p.2))) =
      some (if roomActive s docId then { st with lastAccess := now } else st) := by
    rw [alookup_map_keyed _ hkeys docId, hlk]
    rfl
  have hmem : docId ∈ (s.documentStates.filter (fun p =>
      !roomActive s p.1 &&
        decide (CLEANUP_INACTIVE_TIMEOUT < now - p.2.lastAccess))).map Prod.fst ↔
      (!roomActive s docId &&
        decide (CLEANUP_INACTIVE_TIMEOUT < now - st.lastAccess)) = true := by
    constructor
    · intro hm
      rcases List.mem_map.mp hm with ⟨p, hpf, hp1⟩
      have hpl := List.mem_of_mem_filter hpf
      have hpred := List.of_mem_filter hpf
      have hpe : p = (docId, p.2) := by rw [← hp1]
      have hmem2 : (docId, p.2) ∈ s.documentStates := hpe ▸ hpl
      have hsome := alookup_of_mem_nodup hnd hmem2
      rw [hlk] at hsome
      have hps : p.2 = st := (Option.some.inj hsome).symm
      rw [hpe] at hpred
      simpa [hps] using hpred
    · intro hp
      refine List.mem_map.mpr ⟨(docId, st), List.mem_filter.mpr ⟨alookup_some_mem hlk, ?_⟩, rfl⟩
      simpa using hp
  refine ⟨?_, ?_, ?_⟩
  · intro ha
    have hnm : docId ∉ (s.documentStates.filter (fun p =>
        !roomActive s p.1 &&
          decide (CLEANUP_INACTIVE_TIMEOUT < now - p.2.lastAccess))).map Prod.fst := by
      rw [hmem, ha]
      simp
    rw [hbase, hflk, if_neg hnm, hlk1, if_pos ha]
  · intro ha hstale
    have hm : docId ∈ (s.documentStates.filter (fun p =>
        !roomActive s p.1 &&
          decide (CLEANUP_INACTIVE_TIMEOUT < now - p.2.lastAccess))).map Prod.fst := by
      rw [hmem, ha]
      simpa using hstale
    rw [hbase, hflk, if_pos hm]
  · intro ha hfresh
    have hnm : docId ∉ (s.documentStates.filter (fun p =>
        !roomActive s p.1 &&
          decide (CLEANUP_INACTIVE_TIMEOUT < now - p.2.lastAccess))).map Prod.fst := by
      rw [hmem, ha]
      simpa using hfresh
    rw [hbase, hflk, if_neg hnm, hlk1, if_neg (by rw [ha]; exact Bool.false_ne_true)]

/-- Witness for the C6 theorem at the reaper fixture: the stale
room-less replica of `bbbbbbbbbbbb` is retired on a run at time
500000. -/
theorem reaper_retires_exactly_inactive_witness :
    (roomActive reaperState "bbbbbbbbbbbb" = true →
      alookup "bbbbbbbbbbbb" (cleanupInactiveDocuments reaperState 500000).documentStates =
        some { (⟨[⟨9, 0⟩], 1, true, 100⟩ : ReplicaState) with lastAccess := 500000 }) ∧
    (roomActive reaperState "bbbbbbbbbbbb" = false →
      CLEANUP_INACTIVE_TIMEOUT < 500000 - (100 : Nat) →
      alookup "bbbbbbbbbbbb" (cleanupInactiveDocuments reaperState 500000).documentStates =
        none) ∧
    (roomActive reaperState "bbbbbbbbbbbb" = false →
      ¬ CLEANUP_INACTIVE_TIMEOUT < 500000 - (100 : Nat) →
      alookup "bbbbbbbbbbbb" (cleanupInactiveDocuments reaperState 500000).documentStates =
        some ⟨[⟨9, 0⟩], 1, true, 100⟩) :=
  reaper_retires_exactly_inactive reaperState 500000 "bbbbbbbbbbbb"
    ⟨[⟨9, 0⟩], 1, true, 100⟩ (by decide) (by decide)

/-- C10: `leave-document` never produces an ack, and it emits the
`user-left` broadcast for the leaver's identity to the room's current
members even when the leaving session was never present in the
document's presence map. -/
theorem leave_broadcasts_without_ack (s : ServerState) (user : ModelUser)
    (sid docId : String)
    (hnever : ∀ pm, alookup docId s.documentPresence = some pm → alookup sid pm = none) :
    (handleLeave s user sid docId).2 =
      ((roomMembers s docId).filter (fun t => t != sid)).map (fun t =>
        Event.sent t (Msg.userLeft (subscriberOf user).userId
          (subscriberOf user).userName (subscriberOf user).email)) ∧
    ∀ a, Event.acked a ∉ (handleLeave s user sid docId).2 := by
  have hsecond : (handleLeave s user sid docId).2 =
      ((roomMembers s docId).filter (fun t => t != sid)).map (fun t =>
        Event.sent t (Msg.userLeft (subscriberOf user).userId
          (subscriberOf user).userName (subscriberOf user).email)) := by
    simp only [handleLeave]
    cases halo : alookup docId s.documentPresence with
    | none =>
      simp [roomMembers, leaveRoom, alookup_aset_self, List.filter_filter]
    | some pm =>
      by_cases he : (adelete sid pm).isEmpty <;>
        simp [halo, he, roomMembers, leaveRoom, alookup_aset_self, List.filter_filter]
  refine ⟨hsecond, ?_⟩
  intro a hm
  rw [hsecond] at hm
  rcases List.mem_map.mp hm with ⟨t, _, he⟩
  exact absurd he (by simp)

/-- Witness for the C10 theorem: the session `ghost`, which never
joined the demo document, still triggers `user-left` broadcasts to the
room members and gets no ack. -/
theorem leave_broadcasts_without_ack_witness :
    (handleLeave demoState malloryUser "ghost" "aaaaaaaaaaaa").2 =
      ((roomMembers demoState "aaaaaaaaaaaa").filter (fun t => t != "ghost")).map (fun t =>
        Event.sent t (Msg.userLeft (subscriberOf malloryUser).userId
          (subscriberOf malloryUser).userName (subscriberOf malloryUser).email)) ∧
    ∀ a, Event.acked a ∉ (handleLeave demoState malloryUser "ghost" "aaaaaaaaaaaa").2 :=
  leave_broadcasts_without_ack demoState malloryUser "ghost" "aaaaaaaaaaaa"
    (fun pm hpm => by
      have h0 : alookup "aaaaaaaaaaaa" demoState.documentPresence =
          some [("peer1", subscriberOf bobUser)] := by decide
      rw [h0] at hpm
      rw [← Option.some.inj hpm]
      decide)

/-- C9 counterexample: `mallory`'s socket is not a member of the demo
document's room, yet the awareness it sends on that document is relayed
to the room members, so awareness from non-members is not suppressed. -/
theorem awareness_nonmember_relayed_cex :
    "attsock" ∉ roomMembers demoState "aaaaaaaaaaaa" ∧
    (handleAwareness demoState malloryUser "attsock" "aaaaaaaaaaaa" [1, 2, 3]).2 =
      [Event.sent "peer1" (Msg.yjsAwareness [1, 2, 3] "mallory"),
       Event.sent "evesock" (Msg.yjsAwareness [1, 2, 3] "mallory")] := by
  decide

/-- C9 (amended): a `yjs-awareness` on document D is broadcast
unchanged, tagged with the sender's user id, to exactly the members of
D's room other than the sending socket, with no persistence (the server
state is untouched) and no role or membership check on the sender. -/
theorem awareness_broadcast_membership_free (s : ServerState) (user : ModelUser)
    (sid docId : String) (aw : List Nat) :
    (handleAwareness s user sid docId aw).1 = s ∧
    (∀ t, t ∈ roomMembers s docId → t ≠ sid →
      Event.sent t (Msg.yjsAwareness aw user.id) ∈
        (handleAwareness s user sid docId aw).2) ∧
    (∀ e ∈ (handleAwareness s user sid docId aw).2,
      ∃ t, t ∈ roomMembers s docId ∧ t ≠ sid ∧
        e = Event.sent t (Msg.yjsAwareness aw user.id)) := by
  refine ⟨rfl, ?_, ?_⟩
  · intro t ht hne
    simp only [handleAwareness]
    exact List.mem_map.mpr ⟨t, List.mem_filter.mpr ⟨ht, by simp [hne]⟩, rfl⟩
  · intro e he
    simp only [handleAwareness] at he
    rcases List.mem_map.mp he with ⟨t, htf, rfl⟩
    exact ⟨t, List.mem_of_mem_filter htf, by simpa using List.of_mem_filter htf, rfl⟩

/-- Witness for the amended C9 theorem: `bob`'s awareness from
`peer1` reaches `evesock`, and the state is untouched. -/
theorem awareness_broadcast_membership_free_witness :
    (handleAwareness demoState bobUser "peer1" "aaaaaaaaaaaa" [9]).1 = demoState ∧
    Event.sent "evesock" (Msg.yjsAwareness [9] "bob") ∈
      (handleAwareness demoState bobUser "peer1" "aaaaaaaaaaaa" [9]).2 :=
  ⟨(awareness_broadcast_membership_free demoState bobUser "peer1" "aaaaaaaaaaaa" [9]).1,
   (awareness_broadcast_membership_free demoState bobUser "peer1" "aaaaaaaaaaaa" [9]).2.1
     "evesock" (by decide) (by decide)⟩

/-- C8 counterexample: the id `xyz` names no document, yet a join on
it acks `Invalid document ID` while a denied join on the existing demo
document acks `Document not found or access denied` — the two acks
differ, so a missing (malformed) id is distinguishable. -/
theorem join_missing_vs_denied_cex :
    (∀ rec ∈ demoState.db, rec.id ≠ "xyz") ∧
    (handleJoin demoState malloryUser "s1" "xyz" 0).2 =
      [Event.acked (Ack.err "Invalid document ID")] ∧
    (handleJoin demoState malloryUser "s2" "aaaaaaaaaaaa" 0).2 =
      [Event.acked (Ack.err "Document not found or access denied")] ∧
    (handleJoin demoState malloryUser "s1" "xyz" 0).2 ≠
      (handleJoin demoState malloryUser "s2" "aaaaaaaaaaaa" 0).2 := by
  decide

/-- C8 (amended): for a well-formed (valid ObjectId) document id that
does not exist and a well-formed id of an existing document the user
can not access, `join-document` returns the identical access-denied
ack, so the two cases are indistinguishable to the caller. -/
theorem join_missing_vs_denied_same_ack (s : ServerState) (user : ModelUser)
    (sid1 sid2 d1 d2 : String) (now1 now2 : Nat)
    (hv1 : isValidObjectId d1 = true)
    (hmissing : ∀ rec ∈ s.db, rec.id ≠ d1)
    (hv2 : isValidObjectId d2 = true)
    (hexists : ∃ rec ∈ s.db, rec.id = d2)
    (hdenied : findDocumentForAccess s.db d2 user.id = none) :
    (handleJoin s user sid1 d1 now1).2 =
      [Event.acked (Ack.err "Document not found or access denied")] ∧
    (handleJoin s user sid2 d2 now2).2 =
      [Event.acked (Ack.err "Document not found or access denied")] := by
  constructor
  · have hnone : findDocumentForAccess s.db d1 user.id = none := by
      simp only [findDocumentForAccess]
      apply List.find?_eq_none.mpr
      intro rec hrec
      simp [hmissing rec hrec]
    simp [handleJoin, hv1, hnone]
  · simp [handleJoin, hv2, hdenied]

/-- Witness for the amended C8 theorem: `bbbbbbbbbbbb` is a valid id
naming no document, `mallory` has no access to the demo document, and
both joins ack the same error. -/
theorem join_missing_vs_denied_same_ack_witness :
    (handleJoin demoState malloryUser "s1" "bbbbbbbbbbbb" 0).2 =
      [Event.acked (Ack.err "Document not found or access denied")] ∧
    (handleJoin demoState malloryUser "s2" "aaaaaaaaaaaa" 0).2 =
      [Event.acked (Ack.err "Document not found or access denied")] :=
  join_missing_vs_denied_same_ack demoState malloryUser "s1" "s2"
    "bbbbbbbbbbbb" "aaaaaaaaaaaa" 0 0 (by decide) (by decide) (by decide)
    ⟨demoDoc, by decide, by decide⟩ (by decide)

/-- C2 counterexample: the byte array `[128]` is a malformed state
vector (a truncated varint), and a rejoin carrying it is answered with
the failure ack `Failed to rejoin document` — the whole reply trace —
rather than with a `yjs-sync` carrying the full state. -/
theorem rejoin_malformed_no_fallback_cex :
    decodeStateVector [128] = none ∧
    (handleRejoin demoState ownerUser "ownsock" "aaaaaaaaaaaa" (some [128]) 200).2 =
      [Event.acked (Ack.err "Failed to rejoin document")] := by
  decide

/-- C2 (amended): on an authorized rejoin, an absent state vector is
turned into the empty byte encoding, for which the diff is the
replica's full state, so the `yjs-sync` reply carries the full state;
but a malformed vector (non-empty bytes the decoder rejects) makes the
handler's catch branch ack the failure `Failed to rejoin document`
with no `yjs-sync` at all. -/
theorem rejoin_state_vector_handling (s : ServerState) (user : ModelUser)
    (sid docId : String) (now : Nat) (doc : DocRecord)
    (hvalid : isValidObjectId docId = true)
    (hacc : findDocumentForAccess s.db docId user.id = some doc) :
    ((handleRejoin s user sid docId none now).2.head? =
      some (Event.sent sid (Msg.yjsSync
        (replicaOf (handleRejoin s user sid docId none now).1 docId)))) ∧
    ∀ bs, bs ≠ [] → decodeStateVector bs = none →
      (handleRejoin s user sid docId (some bs) now).2 =
        [Event.acked (Ack.err "Failed to rejoin document")] := by
  constructor
  · have hlk := loadDocumentSnapshot_lookup
      { s with rooms := joinRoom s.rooms sid docId } docId now
    simp [handleRejoin, hvalid, hacc, encodeStateAsUpdateDiff, replicaOf, hlk]
  · intro bs hne hdec
    simp [handleRejoin, hvalid, hacc, encodeStateAsUpdateDiff, hne, hdec]

/-- Witness for the amended C2 theorem at the demo state: the absent
vector yields a full-state sync and the malformed vector `[128]` yields
the failure ack. -/
theorem rejoin_state_vector_handling_witness :
    ((handleRejoin demoState ownerUser "ownsock2" "aaaaaaaaaaaa" none 200).2.head? =
      some (Event.sent "ownsock2" (Msg.yjsSync
        (replicaOf (handleRejoin demoState ownerUser "ownsock2" "aaaaaaaaaaaa" none 200).1
          "aaaaaaaaaaaa")))) ∧
    (handleRejoin demoState ownerUser "ownsock2" "aaaaaaaaaaaa" (some [129]) 200).2 =
      [Event.acked (Ack.err "Failed to rejoin document")] :=
  ⟨(rejoin_state_vector_handling demoState ownerUser "ownsock2" "aaaaaaaaaaaa" 200
      demoDoc (by decide) (by decide)).1,
   (rejoin_state_vector_handling demoState ownerUser "ownsock2" "aaaaaaaaaaaa" 200
      demoDoc (by decide) (by decide)).2 [129] (by decide) (by decide)⟩

/-- Helper: on a non-empty buffer the flush payload — the single
pending update taken as-is, or the merge of several — is the merge of
the whole buffer. -/
theorem flush_payload_eq (q : List (List Op)) (h : q ≠ []) :
    (if q.length == 1 then q.headD [] else mergeUpdates q) = mergeUpdates q := by
  match q with
  | [] => exact absurd rfl h
  | [x] => simp [mergeUpdates]
  | x :: y :: rest =>
    have h2 : (x :: y :: rest).length ≠ 1 := by simp
    simp [beq_iff_eq, h2]

/-- C7: a non-self-origin local update is enqueued; when the buffer
reaches `MAX_QUEUE_SIZE = 10` the provider flushes immediately,
otherwise it re-arms the debounce timer to `DEBOUNCE_WAIT = 50` ms
after this (most recent) enqueue; a flush of a non-empty buffer merges
all pending updates into one payload, emits exactly one `yjs-update`
and leaves the buffer empty; self-origin events are ignored. -/
theorem provider_flush_policy (p : ProviderState) (docId : String)
    (u : List Op) (now : Nat) :
    ((p.updateQueue ++ [u]).length < MAX_QUEUE_SIZE →
      handleLocalUpdate docId p u false now =
        (⟨p.updateQueue ++ [u], some (now + DEBOUNCE_WAIT)⟩, [])) ∧
    (MAX_QUEUE_SIZE ≤ (p.updateQueue ++ [u]).length →
      handleLocalUpdate docId p u false now =
        (⟨[], none⟩,
         [ClientEvent.emitted docId (mergeUpdates (p.updateQueue ++ [u]))])) ∧
    (p.updateQueue ≠ [] →
      flushUpdates docId p =
        (⟨[], none⟩, [ClientEvent.emitted docId (mergeUpdates p.updateQueue)])) ∧
    handleLocalUpdate docId p u true now = (p, []) := by
  refine ⟨?_, ?_, ?_, ?_⟩
  · intro hlt
    have hlt2 : ¬ MAX_QUEUE_SIZE ≤ p.updateQueue.length + 1 := by
      simpa using Nat.not_le.mpr hlt
    simp [handleLocalUpdate, hlt2]
  · intro hge
    have hge2 : MAX_QUEUE_SIZE ≤ p.updateQueue.length + 1 := by simpa using hge
    have hne : p.updateQueue ++ [u] ≠ [] := by simp
    have hflush : flushUpdates docId ⟨p.updateQueue ++ [u], none⟩ =
        (⟨[], none⟩, [ClientEvent.emitted docId (mergeUpdates (p.updateQueue ++ [u]))]) := by
      simp only [flushUpdates]
      rw [flush_payload_eq _ hne]
      simp [hne]
    simp [handleLocalUpdate, hge2, hflush]
  · intro hq
    simp only [flushUpdates]
    rw [flush_payload_eq _ hq]
    simp [hq]
  · simp [handleLocalUpdate]

/-- Witness for the C7 theorem: the tenth enqueue flushes the merged
buffer at once, the second enqueue only re-arms the timer, and a
timer-driven flush of a one-element buffer emits that update. -/
theorem provider_flush_policy_witness :
    handleLocalUpdate "d" nineQueued [⟨1, 9⟩] false 7 =
      (⟨[], none⟩, [ClientEvent.emitted "d"
        (mergeUpdates (nineQueued.updateQueue ++ [[⟨1, 9⟩]]))]) ∧
    handleLocalUpdate "d" oneQueued [⟨1, 1⟩] false 7 =
      (⟨oneQueued.updateQueue ++ [[⟨1, 1⟩]], some (7 + DEBOUNCE_WAIT)⟩, []) ∧
    flushUpdates "d" oneQueued =
      (⟨[], none⟩, [ClientEvent.emitted "d" (mergeUpdates oneQueued.updateQueue)]) :=
  ⟨(provider_flush_policy nineQueued "d" [⟨1, 9⟩] 7).2.1 (by decide),
   (provider_flush_policy oneQueued "d" [⟨1, 1⟩] 7).1 (by decide),
   (provider_flush_policy oneQueued "d" [⟨1, 1⟩] 7).2.2.1 (by decide)⟩

end SyncSpace
